import Mathlib

/-!
Verification of the FocusLog capture/classify/rollup engine.

This file shallowly embeds the parts of the repository relevant to the
scheduling, rollup-watermark, label, and retention claims:

* `src/focuslogd/database.py` (class `FocusLogDB`): the SQLite tables
  become lists of rows, timestamps become natural-number seconds (ISO-8601
  strings compare lexicographically in the same order as the instants they
  denote, so `Nat` with `≤` is an order-faithful model), and each method
  becomes a pure function on a `DB` value.
* `src/focuslogd/daemon.py` (class `FocusLogDaemon`): the per-granularity
  watermarks `last_5min_summary` / `last_hourly_summary` become a
  `DaemonState`, and the summary generators become state transformers whose
  external collaborator outcomes (OpenAI call, video encoder) are passed in
  as oracle values.
* `src/focuslogd/summarizer.py` (class `SummaryGenerator`): the
  result-classification logic of `generate_5min_summary` /
  `generate_hourly_summary` over the possible shapes of an API response.

SQL semantics that matter here and are modelled explicitly: the
`screenshot BLOB NOT NULL` column constraint from `_create_tables` (an
`UPDATE ... SET screenshot = NULL` that matches at least one row aborts
with an error, as SQLite does), the strict `timestamp > ?` bound of
`get_captures_since`, and `ORDER BY` as a stable sort.
-/

namespace FocusLog

/-- Row of the `captures` table created by `FocusLogDB._create_tables`
(`database.py` lines 43-53).  The `screenshot` column is declared
`BLOB NOT NULL`; we store it as an `Option` so that the NULL produced by
`cleanup_screenshots_except_thumbnails` is representable, and enforce the
NOT NULL constraint in the operations themselves. -/
structure CaptureRow where
  id : Nat
  timestamp : Nat
  screenshot : Option (List Nat)
  description : Option String
  classification_raw : Option String
  classification_error : Option String
deriving DecidableEq

/-- Row of the `labels` table (`database.py` lines 33-40): unique name plus
a `last_used` recency timestamp. -/
structure LabelRow where
  id : Nat
  name : String
  last_used : Nat
deriving DecidableEq

/-- Row of the `summaries` table (`database.py` lines 67-77): the rollup
rows, with granularity tag `summary_type` ("5min" or "hourly"),
half-open-intended `[start_time, end_time)` bounds, content text and
optional video artifact path. -/
structure SummaryRow where
  id : Nat
  summary_type : String
  start_time : Nat
  end_time : Nat
  content : String
  video_path : Option String
deriving DecidableEq

/-- The whole SQLite database: the four tables plus the AUTOINCREMENT
counters for the three rowid-keyed tables. -/
structure DB where
  captures : List CaptureRow
  labels : List LabelRow
  captures_labels : List (Nat × Nat)
  summaries : List SummaryRow
  next_capture_id : Nat
  next_label_id : Nat
  next_summary_id : Nat
deriving DecidableEq

/-- A freshly created database, as `FocusLogDB.__init__` leaves it after
`_create_tables` on a new file. -/
def emptyDB : DB := ⟨[], [], [], [], 1, 1, 1⟩

/-- Ordering used by `ORDER BY timestamp ASC` on the captures table. -/
def tsLE (a b : CaptureRow) : Prop := a.timestamp ≤ b.timestamp

instance : DecidableRel tsLE := fun a b => Nat.decLe a.timestamp b.timestamp

instance : IsTotal CaptureRow tsLE := ⟨fun a b => Nat.le_total a.timestamp b.timestamp⟩

instance : IsTrans CaptureRow tsLE := ⟨fun _ _ _ h h2 => Nat.le_trans h h2⟩

/-- Ordering used by `ORDER BY last_used DESC` on the labels table. -/
def recencyGE (a b : LabelRow) : Prop := b.last_used ≤ a.last_used

instance : DecidableRel recencyGE := fun a b => Nat.decLe b.last_used a.last_used

instance : IsTotal LabelRow recencyGE := ⟨fun a b => Nat.le_total b.last_used a.last_used⟩

instance : IsTrans LabelRow recencyGE := ⟨fun _ _ _ h h2 => Nat.le_trans h2 h⟩

/-- Ordering used by `ORDER BY start_time ASC` on the summaries table. -/
def startLE (a b : SummaryRow) : Prop := a.start_time ≤ b.start_time

instance : DecidableRel startLE := fun a b => Nat.decLe a.start_time b.start_time

instance : IsTotal SummaryRow startLE := ⟨fun a b => Nat.le_total a.start_time b.start_time⟩

instance : IsTrans SummaryRow startLE := ⟨fun _ _ _ h h2 => Nat.le_trans h h2⟩

/-- `FocusLogDB.get_or_create_label` (`database.py` lines 92-123): look the
name up; if present, refresh `last_used` to the current time and return the
existing id; otherwise insert a fresh row (whose `last_used` defaults to
`CURRENT_TIMESTAMP`, i.e. `now`).  `now` is the `datetime.now()` read
inside the method. -/
def get_or_create_label (db : DB) (now : Nat) (label_name : String) : Nat × DB :=
  match db.labels.find? (fun r => r.name == label_name) with
  | some row =>
      let touch := fun (r : LabelRow) => if r.id = row.id then { r with last_used := now } else r
      (row.id, { db with labels := db.labels.map touch })
  | none =>
      (db.next_label_id,
       { db with labels := db.labels ++ [⟨db.next_label_id, label_name, now⟩],
                 next_label_id := db.next_label_id + 1 })

/-- `FocusLogDB.get_all_labels` (`database.py` lines 125-137): all label
names ordered by `last_used DESC` (stable in table order among ties). -/
def get_all_labels (db : DB) : List String :=
  (List.insertionSort recencyGE db.labels).map (fun r => r.name)

/-- The per-label body of the loop inside `FocusLogDB.save_capture`
(`database.py` lines 181-187): resolve the label through
`get_or_create_label` and record the association with `INSERT OR IGNORE`
(the pair's primary key makes a duplicate insert a no-op). -/
def attach_label (capture_id now : Nat) (acc : DB) (label_name : String) : DB :=
  let res := get_or_create_label acc now label_name
  if (capture_id, res.1) ∈ res.2.captures_labels then res.2
  else { res.2 with captures_labels := res.2.captures_labels ++ [(capture_id, res.1)] }

/-- `FocusLogDB.save_capture` (`database.py` lines 139-190): insert one
capture row, then run the label loop.  The `screenshot` argument is
`bytes` in the source (never `None`), so the stored column value is always
non-NULL at insertion time. -/
def save_capture (db : DB) (screenshot : List Nat) (description : Option String)
    (labels : List String) (classification_raw : Option String)
    (classification_error : Option String) (timestamp : Nat) (now : Nat) : Nat × DB :=
  let capture_id := db.next_capture_id
  let row : CaptureRow :=
    ⟨capture_id, timestamp, some screenshot, description, classification_raw,
     classification_error⟩
  let db1 : DB :=
    { db with captures := db.captures ++ [row], next_capture_id := capture_id + 1 }
  (capture_id, labels.foldl (attach_label capture_id now) db1)

/-- `FocusLogDB.save_summary` (`database.py` lines 192-220): insert one
rollup row. -/
def save_summary (db : DB) (summary_type : String) (start_time end_time : Nat)
    (content : String) (video_path : Option String) : Nat × DB :=
  (db.next_summary_id,
   { db with
      summaries := db.summaries ++
        [⟨db.next_summary_id, summary_type, start_time, end_time, content, video_path⟩],
      next_summary_id := db.next_summary_id + 1 })

/-- One step of the `ORDER BY end_time DESC LIMIT 1` scan of
`get_latest_summary`: keep the row of the requested type with the greatest
`end_time` seen so far. -/
def latest_step (summary_type : String) (acc : Option SummaryRow) (r : SummaryRow) :
    Option SummaryRow :=
  if r.summary_type == summary_type then
    match acc with
    | none => some r
    | some a => if a.end_time < r.end_time then some r else acc
  else acc

/-- `FocusLogDB.get_latest_summary` (`database.py` lines 307-329): the row
of the given type with the greatest `end_time` (`ORDER BY end_time DESC
LIMIT 1`; the earliest-inserted row wins ties in this model). -/
def get_latest_summary (db : DB) (summary_type : String) : Option SummaryRow :=
  db.summaries.foldl (latest_step summary_type) none

/-- `FocusLogDB.get_captures_since` (`database.py` lines 331-372): the rows
with `timestamp > since_time` — a strict lower bound and no upper bound —
in ascending timestamp order.  (The labels attached to each returned dict
and the `include_screenshots` projection do not affect which rows are
selected and are omitted.) -/
def get_captures_since (db : DB) (since_time : Nat) : List CaptureRow :=
  List.insertionSort tsLE (db.captures.filter (fun c => since_time < c.timestamp))

/-- `FocusLogDB.get_summaries_in_range` (`database.py` lines 374-401): rows
of the given type with `start_time >= start` and `end_time <= end`, in
ascending `start_time` order. -/
def get_summaries_in_range (db : DB) (summary_type : String) (start_time end_time : Nat) :
    List SummaryRow :=
  List.insertionSort startLE
    (db.summaries.filter
      (fun r => r.summary_type == summary_type
        && start_time ≤ r.start_time && r.end_time ≤ end_time))

/-- The 5-minute bucket computed in `cleanup_screenshots_except_thumbnails`
(`database.py` lines 277-280): `window_minute = (minute // 5) * 5` and the
capture's time truncated to `replace(minute=window_minute, second=0,
microsecond=0)`, keeping the date and hour. -/
def bucketStart (t : Nat) : Nat :=
  t / 3600 * 3600 + t / 60 % 60 / 5 * 5 * 60

/-- The grouping loop of `cleanup_screenshots_except_thumbnails`
(`database.py` lines 270-288): walk the fetched captures in timestamp
order, keep the first id of each new 5-minute window as a thumbnail and
mark every further id in the same window for deletion. -/
def cleanup_scan : Option Nat → List CaptureRow → List Nat × List Nat
  | _, [] => ([], [])
  | current_window_start, c :: rest =>
    let window_start := bucketStart c.timestamp
    if current_window_start = some window_start then
      let res := cleanup_scan current_window_start rest
      (res.1, c.id :: res.2)
    else
      let res := cleanup_scan (some window_start) rest
      (c.id :: res.1, res.2)

/-- The `UPDATE captures SET screenshot = NULL WHERE id IN (...)` statement
(`database.py` lines 292-299), run against the schema of `_create_tables`
where `screenshot` is `BLOB NOT NULL`: if the statement matches at least
one row, assigning NULL violates the constraint and SQLite aborts the whole
statement with an `IntegrityError`; if it matches no row it succeeds
without changing anything. -/
def update_screenshots_null (db : DB) (ids : List Nat) : Except String DB :=
  if db.captures.any (fun c => ids.contains c.id) then
    Except.error "NOT NULL constraint failed: captures.screenshot"
  else
    let clear := fun (c : CaptureRow) =>
      if ids.contains c.id then { c with screenshot := none } else c
    Except.ok { db with captures := db.captures.map clear }

instance {ε α : Type} [DecidableEq ε] [DecidableEq α] : DecidableEq (Except ε α) := fun a b =>
  match a, b with
  | Except.error e, Except.error f =>
      if h : e = f then isTrue (by rw [h]) else isFalse (fun hh => by cases hh; exact h rfl)
  | Except.error _, Except.ok _ => isFalse (fun hh => by cases hh)
  | Except.ok _, Except.error _ => isFalse (fun hh => by cases hh)
  | Except.ok x, Except.ok y =>
      if h : x = y then isTrue (by rw [h]) else isFalse (fun hh => by cases hh; exact h rfl)

/-- Result record of the cleanup: `kept` count, `deleted` count and the
thumbnail ids. -/
structure CleanupResult where
  kept : Nat
  deleted : Nat
  thumbnails : List Nat
deriving DecidableEq

/-- `FocusLogDB.cleanup_screenshots_except_thumbnails` (`database.py`
lines 238-305): fetch captures with `start_time <= timestamp < end_time`
in ascending order, group them into 5-minute windows keeping the first of
each, and NULL out the screenshots of the rest (which, under the
`_create_tables` schema, aborts whenever there is anything to delete). -/
def cleanup_screenshots_except_thumbnails (db : DB) (start_time end_time : Nat) :
    Except String (CleanupResult × DB) :=
  let captures := List.insertionSort tsLE
    (db.captures.filter
      (fun c => start_time ≤ c.timestamp && c.timestamp < end_time))
  if captures.isEmpty then Except.ok (⟨0, 0, []⟩, db)
  else
    let plan := cleanup_scan none captures
    if plan.2.isEmpty then Except.ok (⟨plan.1.length, plan.2.length, plan.1⟩, db)
    else
      match update_screenshots_null db plan.2 with
      | Except.error e => Except.error e
      | Except.ok db2 => Except.ok (⟨plan.1.length, plan.2.length, plan.1⟩, db2)

/-! ### Summarizer (`src/focuslogd/summarizer.py`) -/

/-- Python's `str.strip()`: drop leading and trailing whitespace.  Defined
on the character list so that it evaluates by structural recursion. -/
def strip (s : String) : String :=
  ⟨(((s.data.dropWhile Char.isWhitespace).reverse).dropWhile Char.isWhitespace).reverse⟩

/-- Python's `str.startswith(t)`.  Defined on the character lists so that
it evaluates by structural recursion. -/
def startswith (s t : String) : Bool :=
  List.isPrefixOf t.data s.data

/-- The possible shapes of the OpenAI responses-API result examined by
`SummaryGenerator.generate_5min_summary` / `generate_hourly_summary`
(`summarizer.py` lines 69-103 and 141-175): a raised exception, a response
object without a `status` attribute, a non-completed status, a refusal, a
missing `output_text`, or an `output_text` string (possibly empty). -/
inductive ApiOutcome where
  | raised (msg : String)
  | noStatus
  | badStatus (status : String)
  | refusal (msg : String)
  | noOutputText
  | content (text : String)
deriving DecidableEq

/-- The error sentinel convention of `summarizer.py`: every failure path
returns a string starting with this text, and `daemon.py` recognises
failure with `summary.startswith("Error generating summary:")`. -/
def errorMarker : String := "Error generating summary:"

/-- Classification of an `ApiOutcome` by the summarizer's checks, shared
between the two generator methods (`summarizer.py` lines 78-103): everything
except a completed response with a non-empty `output_text` is an error. -/
def summary_of_outcome (o : ApiOutcome) : String :=
  match o with
  | ApiOutcome.raised msg => errorMarker ++ " " ++ msg
  | ApiOutcome.noStatus => errorMarker ++ " Invalid response object"
  | ApiOutcome.badStatus status => errorMarker ++ " Response status " ++ status
  | ApiOutcome.refusal msg => errorMarker ++ " " ++ msg
  | ApiOutcome.noOutputText => errorMarker ++ " No output_text in response"
  | ApiOutcome.content text =>
      if text = "" then errorMarker ++ " API returned empty content" else strip text

/-- `SummaryGenerator.generate_5min_summary` (`summarizer.py` lines 34-103):
with no captures it returns a fixed non-error text without calling the API;
otherwise the result is determined by the API outcome. -/
def generate_5min_summary (captures : List CaptureRow) (o : ApiOutcome) : String :=
  if captures.isEmpty then "No activity captured in this period."
  else summary_of_outcome o

/-- `SummaryGenerator.generate_hourly_summary` (`summarizer.py` lines
105-175), same structure over 5-minute summary rows. -/
def generate_hourly_summary (five_min_summaries : List SummaryRow) (o : ApiOutcome) : String :=
  if five_min_summaries.isEmpty then "No activity captured in this hour."
  else summary_of_outcome o

/-! ### Daemon state and rollup generation (`src/focuslogd/daemon.py`) -/

/-- The in-memory watermarks of `FocusLogDaemon`: `last_5min_summary` and
`last_hourly_summary` (`daemon.py` lines 94-105). -/
structure DaemonState where
  last_5min_summary : Nat
  last_hourly_summary : Nat
deriving DecidableEq

/-- Watermark seeding in `FocusLogDaemon.__init__` (`daemon.py` lines
94-105): each watermark is the `end_time` of the latest persisted summary
of its granularity, or `now` minus the granularity period if none exists. -/
def init_state (now : Nat) (db : DB) : DaemonState :=
  { last_5min_summary :=
      match get_latest_summary db "5min" with
      | some row => row.end_time
      | none => now - 300,
    last_hourly_summary :=
      match get_latest_summary db "hourly" with
      | some row => row.end_time
      | none => now - 3600 }

/-- `FocusLogDaemon._generate_5min_summary` (`daemon.py` lines 202-243):
fetch captures after the watermark; an empty fetch advances the watermark
and persists nothing; a marker-prefixed summarizer result changes nothing;
otherwise persist the rollup row `[watermark, now]` and advance the
watermark to `now`.  `o` is the outcome of the external OpenAI call. -/
def generate_5min (st : DaemonState) (db : DB) (now : Nat) (o : ApiOutcome) :
    DaemonState × DB :=
  let start_time := st.last_5min_summary
  let captures := get_captures_since db start_time
  if captures.isEmpty then ({ st with last_5min_summary := now }, db)
  else
    let summary := generate_5min_summary captures o
    if startswith summary errorMarker then (st, db)
    else
      let db2 := (save_summary db "5min" start_time now summary none).2
      ({ st with last_5min_summary := now }, db2)

/-- `FocusLogDaemon._generate_hourly_summary` (`daemon.py` lines 245-337):
fetch the 5-minute rollups in `[watermark, now]`; an empty fetch advances
the watermark; a marker-prefixed summarizer result changes nothing;
otherwise generate the video (external collaborator, outcome `video_path`,
`None` on failure — non-fatal), persist the hourly row, then run the
screenshot cleanup.  The cleanup runs inside the method's try-block, so if
it raises, the exception is caught by the outer handler and the
`last_hourly_summary = now` assignment after it is skipped, although the
summary row has already been committed. -/
def generate_hourly (st : DaemonState) (db : DB) (now : Nat) (o : ApiOutcome)
    (video_path : Option String) : DaemonState × DB :=
  let start_time := st.last_hourly_summary
  let five_min_summaries := get_summaries_in_range db "5min" start_time now
  if five_min_summaries.isEmpty then ({ st with last_hourly_summary := now }, db)
  else
    let summary := generate_hourly_summary five_min_summaries o
    if startswith summary errorMarker then (st, db)
    else
      let db2 := (save_summary db "hourly" start_time now summary video_path).2
      match cleanup_screenshots_except_thumbnails db2 start_time now with
      | Except.error _ => (st, db2)
      | Except.ok res => ({ st with last_hourly_summary := now }, res.2)

/-- The 5-minute due-check of `FocusLogDaemon._check_and_generate_summaries`
(`daemon.py` lines 343-350): fire when at least 300 seconds have elapsed
since the watermark. -/
def check_5min (st : DaemonState) (db : DB) (now : Nat) (o : ApiOutcome) :
    DaemonState × DB :=
  if 300 ≤ now - st.last_5min_summary then generate_5min st db now o else (st, db)

/-- The hourly due-check of `FocusLogDaemon._check_and_generate_summaries`
(`daemon.py` lines 352-359): fire when at least 3600 seconds have elapsed
since the watermark. -/
def check_hourly (st : DaemonState) (db : DB) (now : Nat) (o : ApiOutcome)
    (video_path : Option String) : DaemonState × DB :=
  if 3600 ≤ now - st.last_hourly_summary then generate_hourly st db now o video_path
  else (st, db)

/-- Outcome of the external classifier call inside
`FocusLogDaemon._classify_and_save` (`daemon.py` lines 119-171). -/
inductive ClassifyOutcome where
  | ok (labels : List String) (description : String) (raw : String)
  | failed (error : String)
deriving DecidableEq

/-- `FocusLogDaemon._classify_and_save` (`daemon.py` lines 119-171): on
classifier success save the capture with description, labels and raw
response; on failure save it with the classifier's error message. -/
def classify_and_save (db : DB) (screenshot_data : List Nat) (timestamp : Nat)
    (now : Nat) (result : ClassifyOutcome) : DB :=
  match result with
  | ClassifyOutcome.ok labels description raw =>
      (save_capture db screenshot_data (some description) labels (some raw) none
        timestamp now).2
  | ClassifyOutcome.failed e =>
      (save_capture db screenshot_data none [] none (some e) timestamp now).2

/-- The capture-failure path of `FocusLogDaemon._capture_and_classify`
(`daemon.py` lines 181-189): when `self.capture.capture()` returns `None`,
a capture row is still saved, with `screenshot=b""` (the empty byte string)
and the fixed error marker. -/
def capture_and_classify_failure (db : DB) (timestamp : Nat) : DB :=
  (save_capture db [] none [] none (some "Screenshot capture failed") timestamp
    timestamp).2

/-! ### Sequential runs of the daemon

The daemon dispatches generation in background threads; the model below is
the sequential interleaving in which each generation runs to completion
(each step of a run is one capture insertion, one due-check with its
collaborator outcomes, or a process restart that re-seeds the watermarks
from the database, as `__init__` does). -/

/-- One observable step of the daemon. -/
inductive Event where
  | captureFail (timestamp : Nat)
  | captureOk (timestamp : Nat) (screenshot_data : List Nat) (now : Nat)
      (result : ClassifyOutcome)
  | tick5 (now : Nat) (o : ApiOutcome)
  | tickHourly (now : Nat) (o : ApiOutcome) (video_path : Option String)
  | restart (now : Nat)

/-- Apply one event to the daemon-plus-database state. -/
def apply_event : DaemonState × DB → Event → DaemonState × DB
  | (st, db), Event.captureFail ts => (st, capture_and_classify_failure db ts)
  | (st, db), Event.captureOk ts blob now r => (st, classify_and_save db blob ts now r)
  | (st, db), Event.tick5 now o => check_5min st db now o
  | (st, db), Event.tickHourly now o vp => check_hourly st db now o vp
  | (_, db), Event.restart now => (init_state now db, db)

/-- A run of the daemon from a fresh database: seed the watermarks at time
`now0`, then apply the events in order. -/
def run_events (now0 : Nat) (events : List Event) : DaemonState × DB :=
  events.foldl apply_event (init_state now0 emptyDB, emptyDB)

/-! ### The tick loop (`FocusLogDaemon.run`, `daemon.py` lines 361-408)

Idealized wall clock: sleeping until `next_capture_time` wakes exactly at
it, reading the clock takes no time, and the synchronous work of tick `n`
(capture plus due-checks) takes `p n` seconds.  Each iteration sleeps while
`now < next_capture_time`, then sets `next_capture_time = time.time() +
interval` (the wake-time clock reading plus the interval) before doing the
processing. -/

/-- State of the main loop: the scheduled `next_capture_time` and the wall
clock at the top of the iteration. -/
structure LoopState where
  next_capture_time : Nat
  clock : Nat
deriving DecidableEq

/-- One iteration of the `while self.running` loop: sleep until the
deadline if it is still ahead, reschedule from the wake-time clock reading,
and spend `p` seconds processing. -/
def tick (interval : Nat) (p : Nat) (s : LoopState) : LoopState :=
  let wake := max s.clock s.next_capture_time
  { next_capture_time := wake + interval, clock := wake + p }

/-- The loop state after `n` iterations, starting at clock `t0` with
`next_capture_time = time.time()` as in `run` (`daemon.py` line 379);
`p k` is the processing latency of iteration `k`. -/
def run_ticks (interval t0 : Nat) (p : Nat → Nat) : Nat → LoopState
  | 0 => ⟨t0, t0⟩
  | n + 1 => tick interval (p n) (run_ticks interval t0 p n)

/-- The instant at which iteration `n` captures: its wake time. -/
def capture_time (interval t0 : Nat) (p : Nat → Nat) (n : Nat) : Nat :=
  max (run_ticks interval t0 p n).clock (run_ticks interval t0 p n).next_capture_time

/-- The absolute deadline scheduled for iteration `n` (the value of
`next_capture_time` that iteration `n` waits on). -/
def deadline (interval t0 : Nat) (p : Nat → Nat) (n : Nat) : Nat :=
  (run_ticks interval t0 p n).next_capture_time

/-- The time iteration `n` spends in `time.sleep` (zero when the deadline
has already passed on arrival). -/
def sleep_time (interval t0 : Nat) (p : Nat → Nat) (n : Nat) : Nat :=
  (run_ticks interval t0 p n).next_capture_time - (run_ticks interval t0 p n).clock

/-! ### Basic lemmas about the database operations -/

theorem get_or_create_label_summaries (db : DB) (now : Nat) (nm : String) :
    ((get_or_create_label db now nm).2).summaries = db.summaries := by
  unfold get_or_create_label
  cases db.labels.find? (fun r => r.name == nm) <;> rfl

theorem get_or_create_label_captures (db : DB) (now : Nat) (nm : String) :
    ((get_or_create_label db now nm).2).captures = db.captures := by
  unfold get_or_create_label
  cases db.labels.find? (fun r => r.name == nm) <;> rfl

theorem attach_label_summaries (cid now : Nat) (acc : DB) (nm : String) :
    (attach_label cid now acc nm).summaries = acc.summaries := by
  by_cases hmem : (cid, (get_or_create_label acc now nm).1)
      ∈ ((get_or_create_label acc now nm).2).captures_labels <;>
    simp [attach_label, hmem, get_or_create_label_summaries]

theorem attach_label_captures (cid now : Nat) (acc : DB) (nm : String) :
    (attach_label cid now acc nm).captures = acc.captures := by
  by_cases hmem : (cid, (get_or_create_label acc now nm).1)
      ∈ ((get_or_create_label acc now nm).2).captures_labels <;>
    simp [attach_label, hmem, get_or_create_label_captures]

theorem foldl_attach_summaries (cid now : Nat) (labels : List String) :
    ∀ acc : DB, (labels.foldl (attach_label cid now) acc).summaries = acc.summaries := by
  induction labels with
  | nil => intro acc; rfl
  | cons a t ih => intro acc; rw [List.foldl_cons, ih, attach_label_summaries]

theorem foldl_attach_captures (cid now : Nat) (labels : List String) :
    ∀ acc : DB, (labels.foldl (attach_label cid now) acc).captures = acc.captures := by
  induction labels with
  | nil => intro acc; rfl
  | cons a t ih => intro acc; rw [List.foldl_cons, ih, attach_label_captures]

theorem save_capture_summaries (db : DB) (blob : List Nat) (d : Option String)
    (ls : List String) (raw err : Option String) (ts now : Nat) :
    ((save_capture db blob d ls raw err ts now).2).summaries = db.summaries := by
  unfold save_capture
  simp [foldl_attach_summaries]

theorem save_capture_captures (db : DB) (blob : List Nat) (d : Option String)
    (ls : List String) (raw err : Option String) (ts now : Nat) :
    ((save_capture db blob d ls raw err ts now).2).captures =
      db.captures ++ [⟨db.next_capture_id, ts, some blob, d, raw, err⟩] := by
  unfold save_capture
  simp [foldl_attach_captures]

theorem update_screenshots_null_summaries (db : DB) (ids : List Nat) (db2 : DB)
    (h : update_screenshots_null db ids = Except.ok db2) : db2.summaries = db.summaries := by
  unfold update_screenshots_null at h
  split at h
  · exact Except.noConfusion h
  · injection h with h2
    rw [← h2]

theorem cleanup_ok_summaries (db : DB) (s e : Nat) (res : CleanupResult × DB)
    (h : cleanup_screenshots_except_thumbnails db s e = Except.ok res) :
    res.2.summaries = db.summaries := by
  simp only [cleanup_screenshots_except_thumbnails] at h
  split at h
  · injection h with h2
    rw [← h2]
  · split at h
    · injection h with h2
      rw [← h2]
    · split at h
      · exact Except.noConfusion h
      · rename_i db2 hupd
        injection h with h2
        rw [← h2]
        exact update_screenshots_null_summaries db _ db2 hupd

theorem mem_get_captures_since (db : DB) (t : Nat) (c : CaptureRow) :
    c ∈ get_captures_since db t ↔ c ∈ db.captures ∧ t < c.timestamp := by
  unfold get_captures_since
  rw [List.mem_insertionSort tsLE, List.mem_filter]
  simp

theorem mem_get_summaries_in_range (db : DB) (t : String) (s e : Nat) (r : SummaryRow) :
    r ∈ get_summaries_in_range db t s e ↔
      r ∈ db.summaries ∧ r.summary_type = t ∧ s ≤ r.start_time ∧ r.end_time ≤ e := by
  unfold get_summaries_in_range
  rw [List.mem_insertionSort startLE, List.mem_filter]
  simp [and_assoc]

theorem chain'_append_singleton {α : Type} (R : α → α → Prop) (v : α) :
    ∀ l : List α, List.Chain' R l → (∀ x ∈ l, R x v) → List.Chain' R (l ++ [v]) := by
  intro l
  induction l with
  | nil => intro _ _; simp
  | cons a t ih =>
    intro hc hall
    simp only [List.cons_append]
    rw [List.chain'_cons'] at hc ⊢
    refine ⟨?_, ih hc.2 (fun x hx => hall x (by simp [hx]))⟩
    intro h hh
    cases t with
    | nil =>
      simp at hh
      rw [← hh]
      exact hall a (by simp)
    | cons b t2 =>
      simp at hh
      rw [← hh]
      exact hc.1 b (by simp)

/-! ### Claim C1: tick-loop scheduling -/

/-- A latency profile in which the first tick overruns the 15-second
interval (20 seconds of processing) and later ticks are fast. -/
def overrun_latency : Nat → Nat := fun k => if k = 0 then 20 else 5

/-- Claim C1, counterexample.  With interval 15 and an overrunning first
tick, the scheduled deadlines are 0, 15, 35: the third deadline is the
overrunning tick's wake-time reading plus the interval (`time.time() +
self.interval`, `daemon.py` line 395), not the previous deadline plus the
interval, so the deadlines do not form an arithmetic sequence with step 15
and are not independent of processing latency. -/
theorem c1_deadline_not_arithmetic :
    deadline 15 0 overrun_latency 1 = deadline 15 0 overrun_latency 0 + 15 ∧
    deadline 15 0 overrun_latency 2 = 35 ∧
    deadline 15 0 overrun_latency 2 ≠ deadline 15 0 overrun_latency 1 + 15 := by
  decide

/-- Claim C1, amended.  The loop reschedules from the wake-time clock
reading: each next deadline equals the current tick's capture time plus the
interval; a tick whose processing reaches the interval makes the next tick
fire immediately with no sleep; and only when no tick's processing exceeds
the interval do the capture times form an arithmetic sequence with fixed
step equal to the interval (with each deadline equal to the previous
deadline plus the interval). -/
theorem c1_schedule_amended (interval t0 : Nat) (p : Nat → Nat) :
    (∀ n, deadline interval t0 p (n + 1) = capture_time interval t0 p n + interval) ∧
    (∀ n, interval ≤ p n → sleep_time interval t0 p (n + 1) = 0) ∧
    ((∀ k, p k ≤ interval) →
      ∀ n, capture_time interval t0 p n = t0 + n * interval ∧
        deadline interval t0 p (n + 1) = deadline interval t0 p n + interval) := by
  have step : ∀ m, capture_time interval t0 p (m + 1) =
      max (capture_time interval t0 p m + p m) (capture_time interval t0 p m + interval) :=
    fun m => rfl
  have dstep : ∀ m, deadline interval t0 p (m + 1) = capture_time interval t0 p m + interval :=
    fun m => rfl
  refine ⟨dstep, ?_, ?_⟩
  · intro n h
    show (run_ticks interval t0 p (n + 1)).next_capture_time
        - (run_ticks interval t0 p (n + 1)).clock = 0
    simp only [run_ticks, tick]
    omega
  · intro hle
    have key : ∀ n, capture_time interval t0 p n = t0 + n * interval := by
      intro n
      induction n with
      | zero => simp [capture_time, run_ticks]
      | succ k ih =>
        rw [step k, ih]
        have := hle k
        have : max (t0 + k * interval + p k) (t0 + k * interval + interval)
            = t0 + k * interval + interval := by omega
        rw [this]
        ring
    intro n
    refine ⟨key n, ?_⟩
    cases n with
    | zero =>
      rw [dstep 0, key 0]
      show t0 + 0 * interval + interval = (run_ticks interval t0 p 0).next_capture_time + interval
      simp [run_ticks]
    | succ m =>
      rw [dstep (m + 1), key (m + 1), dstep m, key m]
      ring

/-- Claim C1, witness for the amended theorem: with a constant 5-second
latency under a 15-second interval, capture times are 0, 15, 30 and
deadlines advance by exactly the interval; the overrun clause fires with a
20-second latency. -/
theorem c1_schedule_amended_witness :
    capture_time 15 0 (fun _ => 5) 2 = 0 + 2 * 15 ∧
    sleep_time 15 0 (fun _ => 20) 1 = 0 := by
  constructor
  · exact ((c1_schedule_amended 15 0 (fun _ => 5)).2.2 (fun _ => by decide) 2).1
  · exact (c1_schedule_amended 15 0 (fun _ => 20)).2.1 0 (by decide)

/-! ### Claim C3: rollup window bounds -/

/-- The database of the spec's example scenario: captures every 15 seconds
at t = 0, 15, ..., 285, plus one capture exactly at t = 300 (the upper
bound the claim says must be excluded). -/
def spec_example_db : DB :=
  { emptyDB with
    captures := (List.range 21).map (fun i => ⟨i + 1, i * 15, some [], none, none, none⟩) }

/-- Claim C3, counterexample.  `get_captures_since` selects `timestamp >
watermark` with no upper bound (`database.py` lines 353-358), so on the
spec's example the capture at t = 0 (the watermark itself) is excluded and
a capture at t = 300 (the claimed half-open upper bound) is included; the
fetch still has 20 elements, but they are the captures at 15..300, not
those at 0..285. -/
theorem c3_half_open_cex :
    ((get_captures_since spec_example_db 0).map (fun c => c.timestamp)).contains 300 = true ∧
    ((get_captures_since spec_example_db 0).map (fun c => c.timestamp)).contains 0 = false ∧
    (get_captures_since spec_example_db 0).length = 20 := by
  decide

/-- Claim C3, amended.  The records fetched for a rollup window are exactly
those with `watermark < timestamp` — a strict lower bound (a sample at the
watermark instant is excluded) and no upper bound at all (a sample at or
after `now` is included if already inserted). -/
theorem c3_fetch_is_strictly_after_watermark (db : DB) (t : Nat) (c : CaptureRow) :
    c ∈ get_captures_since db t ↔ c ∈ db.captures ∧ t < c.timestamp :=
  mem_get_captures_since db t c

/-! ### Claim C5: empty windows advance the watermark -/

/-- Claim C5.  For both granularities, a due window whose fetched
source-record set is empty persists nothing and advances the watermark to
`now` (`daemon.py` lines 213-216 and 260-263). -/
theorem c5_empty_window_advances :
    (∀ (st : DaemonState) (db : DB) (now : Nat) (o : ApiOutcome),
        300 ≤ now - st.last_5min_summary →
        get_captures_since db st.last_5min_summary = [] →
        check_5min st db now o = ({ st with last_5min_summary := now }, db)) ∧
    (∀ (st : DaemonState) (db : DB) (now : Nat) (o : ApiOutcome) (vp : Option String),
        3600 ≤ now - st.last_hourly_summary →
        get_summaries_in_range db "5min" st.last_hourly_summary now = [] →
        check_hourly st db now o vp = ({ st with last_hourly_summary := now }, db)) := by
  constructor
  · intro st db now o hdue hempty
    simp [check_5min, generate_5min, hdue, hempty]
  · intro st db now o vp hdue hempty
    simp [check_hourly, generate_hourly, hdue, hempty]

/-- Claim C5, witness: a due 5-minute check over an empty database advances
the watermark from 0 to 300 and persists nothing. -/
theorem c5_empty_window_advances_witness :
    check_5min ⟨0, 0⟩ emptyDB 300 ApiOutcome.noStatus = (⟨300, 0⟩, emptyDB) :=
  c5_empty_window_advances.1 ⟨0, 0⟩ emptyDB 300 ApiOutcome.noStatus (by decide) (by decide)

/-! ### Claim C6: the thinning operation on the real schema -/

/-- A database holding two captures 15 seconds apart, both inside the
5-minute bucket starting at t = 0, as produced by two ticks of the
capture loop. -/
def same_bucket_db : DB :=
  { emptyDB with
    captures :=
      [⟨1, 0, some [1], none, none, none⟩, ⟨2, 15, some [2], none, none, none⟩] }

/-- Claim C6, evaluation at the failing input.  On the schema created by
`_create_tables` (where `captures.screenshot` is `BLOB NOT NULL`), thinning
a range with two captures in the same 5-minute bucket aborts with the NOT
NULL constraint violation instead of leaving one thumbnail per bucket; in
particular it is not the claimed idempotent payload-nulling operation. -/
theorem c6_thinning_aborts_on_fresh_schema :
    cleanup_screenshots_except_thumbnails same_bucket_db 0 300 =
      Except.error "NOT NULL constraint failed: captures.screenshot" := by
  decide

/-! ### Claim C4: failed summarization is atomic-on-error -/

/-- Claim C4.  When the summarizer signals failure on a due, non-empty
window, the generation leaves the watermark and the database unchanged
(first two conjuncts, for the two granularities); and the fetches are
monotone — growing the capture table, or retrying later with the same
watermark, only enlarges the fetched set, so the retried window covers the
union of the original range and the newly elapsed range (last two
conjuncts). -/
theorem c4_failure_atomic :
    (∀ (st : DaemonState) (db : DB) (now : Nat) (o : ApiOutcome),
        300 ≤ now - st.last_5min_summary →
        get_captures_since db st.last_5min_summary ≠ [] →
        startswith (generate_5min_summary (get_captures_since db st.last_5min_summary) o)
          errorMarker = true →
        check_5min st db now o = (st, db)) ∧
    (∀ (st : DaemonState) (db : DB) (now : Nat) (o : ApiOutcome) (vp : Option String),
        3600 ≤ now - st.last_hourly_summary →
        get_summaries_in_range db "5min" st.last_hourly_summary now ≠ [] →
        startswith
          (generate_hourly_summary
            (get_summaries_in_range db "5min" st.last_hourly_summary now) o)
          errorMarker = true →
        check_hourly st db now o vp = (st, db)) ∧
    (∀ (db db2 : DB) (w : Nat) (c : CaptureRow),
        (∀ x ∈ db.captures, x ∈ db2.captures) →
        c ∈ get_captures_since db w → c ∈ get_captures_since db2 w) ∧
    (∀ (db : DB) (w n1 n2 : Nat) (r : SummaryRow), n1 ≤ n2 →
        r ∈ get_summaries_in_range db "5min" w n1 →
        r ∈ get_summaries_in_range db "5min" w n2) := by
  refine ⟨?_, ?_, ?_, ?_⟩
  · intro st db now o hdue hne hfail
    have hq : (get_captures_since db st.last_5min_summary).isEmpty = false := by
      cases hcap : get_captures_since db st.last_5min_summary with
      | nil => exact absurd hcap hne
      | cons a t => rfl
    simp [check_5min, generate_5min, hdue, hq, hfail]
  · intro st db now o vp hdue hne hfail
    have hq : (get_summaries_in_range db "5min" st.last_hourly_summary now).isEmpty = false := by
      cases hcap : get_summaries_in_range db "5min" st.last_hourly_summary now with
      | nil => exact absurd hcap hne
      | cons a t => rfl
    simp [check_hourly, generate_hourly, hdue, hq, hfail]
  · intro db db2 w c hsub hc
    rw [mem_get_captures_since] at hc ⊢
    exact ⟨hsub c hc.1, hc.2⟩
  · intro db w n1 n2 r h12 hr
    rw [mem_get_summaries_in_range] at hr ⊢
    exact ⟨hr.1, hr.2.1, hr.2.2.1, le_trans hr.2.2.2 h12⟩

/-- Claim C4, witness: a due 5-minute check over a non-empty window whose
API call fails (no `status` attribute) returns the state and database
unchanged. -/
theorem c4_failure_atomic_witness :
    check_5min ⟨0, 0⟩ same_bucket_db 400 ApiOutcome.noStatus = (⟨0, 0⟩, same_bucket_db) :=
  c4_failure_atomic.1 ⟨0, 0⟩ same_bucket_db 400 ApiOutcome.noStatus (by decide) (by decide)
    (by decide)

/-! ### Claim C8: the failure signal is a string prefix convention -/

/-- The outcomes that `summarizer.py` treats as failures: everything except
a completed response with a non-empty `output_text`. -/
def outcome_is_error (o : ApiOutcome) : Bool :=
  match o with
  | ApiOutcome.content text => text == ""
  | _ => true

theorem startswith_of_prefix (s t : String) (h : t.data <+: s.data) :
    startswith s t = true := by
  unfold startswith
  rw [List.isPrefixOf_iff_prefix]
  exact h

/-- A legitimate summary text that happens to begin with the error
sentinel. -/
def legit_marker_text : String := "Error generating summary: none today, steady focus"

/-- Claim C8, counterexample.  A completed API response whose non-empty
text begins with the sentinel is a text a successful summarization can
return (first conjunct: the summarizer's success path returns it
unchanged), yet the due-check classifies it as a failure and drops it,
leaving the watermark and database untouched (second conjunct).  The
failure signal is therefore not distinguishable from every legitimate
summary result. -/
theorem c8_marker_summary_dropped :
    generate_5min_summary (get_captures_since same_bucket_db 0)
        (ApiOutcome.content legit_marker_text) = legit_marker_text ∧
    check_5min ⟨0, 0⟩ same_bucket_db 400 (ApiOutcome.content legit_marker_text) =
      (⟨0, 0⟩, same_bucket_db) := by
  decide

/-- Claim C8, amended.  Failure is signalled purely by the string sentinel
`"Error generating summary:"`: every genuine failure outcome produces a
sentinel-prefixed string (first conjunct); a completed response with
non-empty text is passed through as its stripped text (second conjunct);
and the scheduler classifies solely by the sentinel — a sentinel-prefixed
result is dropped and anything else is persisted — so a legitimate summary
that itself starts with the sentinel is misclassified as a failure (third
conjunct, the success branch). -/
theorem c8_failure_signal_amended :
    (∀ (captures : List CaptureRow) (o : ApiOutcome), captures ≠ [] →
        outcome_is_error o = true →
        startswith (generate_5min_summary captures o) errorMarker = true) ∧
    (∀ (captures : List CaptureRow) (text : String), captures ≠ [] → text ≠ "" →
        generate_5min_summary captures (ApiOutcome.content text) = strip text) ∧
    (∀ (st : DaemonState) (db : DB) (now : Nat) (o : ApiOutcome),
        300 ≤ now - st.last_5min_summary →
        get_captures_since db st.last_5min_summary ≠ [] →
        startswith (generate_5min_summary (get_captures_since db st.last_5min_summary) o)
            errorMarker = false →
        check_5min st db now o =
          ({ st with last_5min_summary := now },
           (save_summary db "5min" st.last_5min_summary now
              (generate_5min_summary (get_captures_since db st.last_5min_summary) o)
              none).2)) := by
  refine ⟨?_, ?_, ?_⟩
  · intro captures o hne herr
    have hq : captures.isEmpty = false := by
      cases hcap : captures with
      | nil => exact absurd hcap hne
      | cons a t => rfl
    cases o with
    | content text =>
      have htext : text = "" := by
        simpa [outcome_is_error] using herr
      apply startswith_of_prefix
      simp [generate_5min_summary, summary_of_outcome, hq, htext, String.data_append]
    | raised msg =>
      apply startswith_of_prefix
      simp [generate_5min_summary, summary_of_outcome, hq, String.data_append]
    | noStatus =>
      apply startswith_of_prefix
      simp [generate_5min_summary, summary_of_outcome, hq, String.data_append]
    | badStatus status =>
      apply startswith_of_prefix
      simp [generate_5min_summary, summary_of_outcome, hq, String.data_append]
    | refusal msg =>
      apply startswith_of_prefix
      simp [generate_5min_summary, summary_of_outcome, hq, String.data_append]
    | noOutputText =>
      apply startswith_of_prefix
      simp [generate_5min_summary, summary_of_outcome, hq, String.data_append]
  · intro captures text hne htext
    have hq : captures.isEmpty = false := by
      cases hcap : captures with
      | nil => exact absurd hcap hne
      | cons a t => rfl
    simp [generate_5min_summary, summary_of_outcome, hq, htext]
  · intro st db now o hdue hne hok
    have hq : (get_captures_since db st.last_5min_summary).isEmpty = false := by
      cases hcap : get_captures_since db st.last_5min_summary with
      | nil => exact absurd hcap hne
      | cons a t => rfl
    simp [check_5min, generate_5min, hdue, hq, hok]

/-- Claim C8, witness for the amended theorem: a response without a
`status` attribute yields a sentinel-prefixed result on a non-empty
window. -/
theorem c8_failure_signal_amended_witness :
    startswith
      (generate_5min_summary [⟨1, 0, some [], none, none, none⟩] ApiOutcome.noStatus)
      errorMarker = true :=
  c8_failure_signal_amended.1 [⟨1, 0, some [], none, none, none⟩] ApiOutcome.noStatus
    (by decide) (by decide)

/-! ### Claim C7: get-or-create-label -/

/-- The `UPDATE labels SET last_used = ? WHERE id = ?` statement of
`get_or_create_label` (`database.py` lines 110-113), as a transformation of
the labels table. -/
def touch_labels (i now : Nat) (l : List LabelRow) : List LabelRow :=
  l.map (fun r => if r.id = i then { r with last_used := now } else r)

theorem find?_pred {α : Type} (p : α → Bool) (l : List α) (a : α)
    (h : l.find? p = some a) : p a = true :=
  List.find?_some h

theorem gocl_found (db : DB) (now : Nat) (nm : String) (row : LabelRow)
    (hf : db.labels.find? (fun r => r.name == nm) = some row) :
    get_or_create_label db now nm =
      (row.id, { db with labels := touch_labels row.id now db.labels }) := by
  unfold get_or_create_label touch_labels
  rw [hf]

theorem gocl_none (db : DB) (now : Nat) (nm : String)
    (hf : db.labels.find? (fun r => r.name == nm) = none) :
    get_or_create_label db now nm =
      (db.next_label_id,
       { db with labels := db.labels ++ [⟨db.next_label_id, nm, now⟩],
                 next_label_id := db.next_label_id + 1 }) := by
  unfold get_or_create_label
  rw [hf]

theorem touched_name (i now : Nat) (a : LabelRow) :
    ((if a.id = i then { a with last_used := now } else a) : LabelRow).name = a.name := by
  split <;> rfl

theorem find?_name_touch_labels (i now : Nat) (nm : String) (l : List LabelRow) :
    (touch_labels i now l).find? (fun r => r.name == nm)
      = (l.find? (fun r => r.name == nm)).map
          (fun r => if r.id = i then { r with last_used := now } else r) := by
  induction l with
  | nil => rfl
  | cons a t ih =>
    simp only [touch_labels, List.map_cons, List.find?_cons] at ih ⊢
    rw [touched_name]
    cases hp : a.name == nm <;> simp [ih]

theorem count_name_touch_labels (i now : Nat) (nm : String) (l : List LabelRow) :
    ((touch_labels i now l).filter (fun r => r.name == nm)).length
      = (l.filter (fun r => r.name == nm)).length := by
  induction l with
  | nil => rfl
  | cons a t ih =>
    simp only [touch_labels, List.map_cons, List.filter_cons] at ih ⊢
    rw [touched_name]
    cases hp : a.name == nm <;> simp [ih]

/-- The number of rows of the labels table carrying a given name. -/
def label_rows (db : DB) (nm : String) : Nat :=
  (db.labels.filter (fun r => r.name == nm)).length

theorem find?_after_gocl (db : DB) (n1 : Nat) (nm : String) :
    ∃ row2 : LabelRow,
      ((get_or_create_label db n1 nm).2).labels.find? (fun r => r.name == nm) = some row2 ∧
      row2.id = (get_or_create_label db n1 nm).1 ∧ row2.name = nm ∧ row2.last_used = n1 := by
  cases hf : db.labels.find? (fun r => r.name == nm) with
  | some row =>
    rw [gocl_found db n1 nm row hf]
    have hp := find?_pred (fun r => r.name == nm) db.labels row hf
    have hrowname : row.name = nm := eq_of_beq hp
    refine ⟨{ row with last_used := n1 }, ?_, rfl, hrowname, rfl⟩
    show (touch_labels row.id n1 db.labels).find? (fun r => r.name == nm) = _
    rw [find?_name_touch_labels, hf]
    simp
  | none =>
    rw [gocl_none db n1 nm hf]
    refine ⟨⟨db.next_label_id, nm, n1⟩, ?_, rfl, rfl, rfl⟩
    show (db.labels ++ ([⟨db.next_label_id, nm, n1⟩] : List LabelRow)).find?
      (fun r => r.name == nm) = _
    rw [List.find?_append, hf]
    simp

theorem gocl_same_id (db : DB) (n1 n2 : Nat) (nm : String) :
    (get_or_create_label ((get_or_create_label db n1 nm).2) n2 nm).1
      = (get_or_create_label db n1 nm).1 := by
  obtain ⟨row2, hf2, hid, -, -⟩ := find?_after_gocl db n1 nm
  rw [gocl_found _ n2 nm row2 hf2]
  exact hid

theorem gocl_count_first (db : DB) (n1 : Nat) (nm : String) :
    label_rows ((get_or_create_label db n1 nm).2) nm
      = if label_rows db nm = 0 then 1 else label_rows db nm := by
  cases hf : db.labels.find? (fun r => r.name == nm) with
  | some row =>
    rw [gocl_found db n1 nm row hf]
    have hrow := List.mem_of_find?_eq_some hf
    have hp := find?_pred (fun r => r.name == nm) db.labels row hf
    have hne : label_rows db nm ≠ 0 := by
      unfold label_rows
      intro hlen
      have hmem : row ∈ db.labels.filter (fun r => r.name == nm) :=
        List.mem_filter.mpr ⟨hrow, hp⟩
      rw [List.length_eq_zero.mp hlen] at hmem
      exact absurd hmem (List.not_mem_nil row)
    show ((touch_labels row.id n1 db.labels).filter (fun r => r.name == nm)).length = _
    rw [count_name_touch_labels, if_neg hne]
    rfl
  | none =>
    rw [gocl_none db n1 nm hf]
    have hzero : db.labels.filter (fun r => r.name == nm) = [] :=
      List.filter_eq_nil_iff.mpr (List.find?_eq_none.mp hf)
    show ((db.labels ++ ([⟨db.next_label_id, nm, n1⟩] : List LabelRow)).filter
      (fun r => r.name == nm)).length = _
    unfold label_rows
    rw [List.filter_append, hzero]
    simp

theorem gocl_count_second (db : DB) (n1 n2 : Nat) (nm : String) :
    label_rows ((get_or_create_label ((get_or_create_label db n1 nm).2) n2 nm).2) nm
      = label_rows ((get_or_create_label db n1 nm).2) nm := by
  obtain ⟨row2, hf2, -, -, -⟩ := find?_after_gocl db n1 nm
  rw [gocl_found _ n2 nm row2 hf2]
  show ((touch_labels row2.id n2 _).filter (fun r => r.name == nm)).length = _
  rw [count_name_touch_labels]
  rfl

theorem head_recency_max (l : List LabelRow) (x : LabelRow) (hx : x ∈ l)
    (hmax : ∀ y ∈ l, y ≠ x → y.last_used < x.last_used) :
    ((List.insertionSort recencyGE l).map (fun r => r.name)).head? = some x.name := by
  have hperm := List.perm_insertionSort recencyGE l
  have hsorted := List.sorted_insertionSort recencyGE l
  cases hs : List.insertionSort recencyGE l with
  | nil =>
    rw [hs] at hperm
    exact absurd (hperm.mem_iff.mpr hx) (List.not_mem_nil x)
  | cons h tl =>
    rw [hs] at hperm hsorted
    have hh : h ∈ l := hperm.mem_iff.mp (List.mem_cons_self h tl)
    have hxs : x ∈ h :: tl := hperm.mem_iff.mpr hx
    by_cases hxh : x = h
    · simp [hxh]
    · have hxtl : x ∈ tl := by
        rcases List.mem_cons.mp hxs with he | ht
        · exact absurd he hxh
        · exact ht
      have hrel : recencyGE h x := (List.sorted_cons.mp hsorted).1 x hxtl
      have hlt : h.last_used < x.last_used := hmax h hh (fun e => hxh e.symm)
      unfold recencyGE at hrel
      omega

theorem gocl_front (db : DB) (now : Nat) (nm : String)
    (hids : (db.labels.map (fun r => r.id)).Nodup)
    (hlt : ∀ r ∈ db.labels, r.last_used < now) :
    (get_all_labels ((get_or_create_label db now nm).2)).head? = some nm := by
  cases hf : db.labels.find? (fun r => r.name == nm) with
  | some row =>
    rw [gocl_found db now nm row hf]
    have hrow := List.mem_of_find?_eq_some hf
    have hp := find?_pred (fun r => r.name == nm) db.labels row hf
    have hrowname : row.name = nm := eq_of_beq hp
    show ((List.insertionSort recencyGE (touch_labels row.id now db.labels)).map
      (fun r => r.name)).head? = some nm
    have hx : ({ row with last_used := now } : LabelRow) ∈ touch_labels row.id now db.labels := by
      unfold touch_labels
      have hm := List.mem_map_of_mem
        (fun r : LabelRow => if r.id = row.id then { r with last_used := now } else r) hrow
      simpa using hm
    have hres := head_recency_max (touch_labels row.id now db.labels)
      { row with last_used := now } hx ?_
    · rw [hres]
      rw [show ({ row with last_used := now } : LabelRow).name = row.name from rfl, hrowname]
    · intro y hy hne
      rcases List.mem_map.mp hy with ⟨z, hz, hzy⟩
      by_cases hzi : z.id = row.id
      · have hzr : z = row := List.inj_on_of_nodup_map hids hz hrow hzi
        rw [if_pos hzi, hzr] at hzy
        exact absurd hzy.symm hne
      · rw [if_neg hzi] at hzy
        rw [← hzy]
        exact hlt z hz
  | none =>
    rw [gocl_none db now nm hf]
    show ((List.insertionSort recencyGE (db.labels ++ [⟨db.next_label_id, nm, now⟩])).map
      (fun r => r.name)).head? = some nm
    have hx : (⟨db.next_label_id, nm, now⟩ : LabelRow)
        ∈ db.labels ++ [⟨db.next_label_id, nm, now⟩] := by
      simp
    have hres := head_recency_max (db.labels ++ [⟨db.next_label_id, nm, now⟩])
      ⟨db.next_label_id, nm, now⟩ hx ?_
    · rw [hres]
    · intro y hy hne
      rcases List.mem_append.mp hy with h1 | h1
      · exact hlt y h1
      · simp at h1
        exact absurd h1 hne

/-- Claim C7, counterexample.  Creating a label and then referencing it
again leaves it in position 0 of the recency ordering both times: the
second call does not strictly increase its position (there is no position
strictly better than the front), refuting the claim that each call
strictly increases the label's position in the ordering returned by the
all-labels query. -/
theorem c7_position_not_strictly_increased :
    get_all_labels ((get_or_create_label emptyDB 1 "a").2) = ["a"] ∧
    get_all_labels
        ((get_or_create_label ((get_or_create_label emptyDB 1 "a").2) 2 "a").2) = ["a"] := by
  decide

/-- Claim C7, amended.  `get_or_create_label` is idempotent on identity:
two calls with the same name return the same label id (first conjunct) and
never duplicate the row — the first call creates it only if absent and the
second call leaves the row count unchanged (second and third conjuncts).
Each call sets the label's `last_used` to the call time, so whenever the
call time is strictly later than every existing row's `last_used`, the
label moves to (or stays at) the front of the recency ordering returned by
`get_all_labels` (fourth conjunct, for a table with distinct ids, as the
PRIMARY KEY guarantees); the position therefore cannot strictly increase
on every call — a label already at the front stays at the front. -/
theorem c7_get_or_create_idempotent :
    (∀ (db : DB) (n1 n2 : Nat) (nm : String),
        (get_or_create_label ((get_or_create_label db n1 nm).2) n2 nm).1
          = (get_or_create_label db n1 nm).1) ∧
    (∀ (db : DB) (n1 : Nat) (nm : String),
        label_rows ((get_or_create_label db n1 nm).2) nm
          = if label_rows db nm = 0 then 1 else label_rows db nm) ∧
    (∀ (db : DB) (n1 n2 : Nat) (nm : String),
        label_rows ((get_or_create_label ((get_or_create_label db n1 nm).2) n2 nm).2) nm
          = label_rows ((get_or_create_label db n1 nm).2) nm) ∧
    (∀ (db : DB) (now : Nat) (nm : String),
        (db.labels.map (fun r => r.id)).Nodup →
        (∀ r ∈ db.labels, r.last_used < now) →
        (get_all_labels ((get_or_create_label db now nm).2)).head? = some nm) :=
  ⟨gocl_same_id, gocl_count_first, gocl_count_second, gocl_front⟩

/-- Claim C7, witness for the amended theorem: referencing "work" at time 5
in a table holding "x" and "y" (last used at 1 and 2) puts "work" at the
front of the recency ordering. -/
theorem c7_get_or_create_idempotent_witness :
    (get_all_labels ((get_or_create_label
        { emptyDB with labels := [⟨1, "x", 1⟩, ⟨2, "y", 2⟩], next_label_id := 3 }
        5 "work").2)).head? = some "work" :=
  c7_get_or_create_idempotent.2.2.2
    { emptyDB with labels := [⟨1, "x", 1⟩, ⟨2, "y", 2⟩], next_label_id := 3 }
    5 "work" (by decide) (by decide)

/-! ### Claim C9: the NOT NULL violation in the thinning operation -/

theorem bucketStart_eq (t : Nat) : bucketStart t = t / 300 * 300 := by
  unfold bucketStart
  omega

theorem bucketStart_mono {t1 t2 : Nat} (h : t1 ≤ t2) : bucketStart t1 ≤ bucketStart t2 := by
  rw [bucketStart_eq, bucketStart_eq]
  exact Nat.mul_le_mul_right 300 (Nat.div_le_div_right h)

/-- Ordering of captures by strictly increasing 5-minute bucket. -/
def bucketLT (a b : CaptureRow) : Prop :=
  bucketStart a.timestamp < bucketStart b.timestamp

instance : IsTrans CaptureRow bucketLT := ⟨fun _ _ _ h h2 => Nat.lt_trans h h2⟩

theorem cleanup_scan_nil_chain :
    ∀ (l : List CaptureRow) (cur : Option Nat), (cleanup_scan cur l).2 = [] →
      List.Chain' (fun a b => bucketStart a.timestamp ≠ bucketStart b.timestamp) l := by
  intro l
  induction l with
  | nil => intro _ _; simp
  | cons c rest ih =>
    intro cur h
    simp only [cleanup_scan] at h
    split at h
    · simp at h
    · simp only [] at h
      rw [List.chain'_cons']
      refine ⟨?_, ih (some (bucketStart c.timestamp)) h⟩
      intro y hy
      cases rest with
      | nil => simp at hy
      | cons d rest2 =>
        simp at hy
        rw [← hy]
        intro heq
        simp only [cleanup_scan] at h
        split at h
        · simp at h
        · rename_i hnd
          exact hnd (by rw [heq])

theorem chain'_and {α : Type} (R S : α → α → Prop) :
    ∀ l : List α, List.Chain' R l → List.Chain' S l →
      List.Chain' (fun a b => R a b ∧ S a b) l := by
  intro l
  induction l with
  | nil => intro _ _; simp
  | cons a t ih =>
    intro hr hs
    rw [List.chain'_cons'] at hr hs ⊢
    exact ⟨fun y hy => ⟨hr.1 y hy, hs.1 y hy⟩, ih hr.2 hs.2⟩

theorem cleanup_scan_delete_mem :
    ∀ (l : List CaptureRow) (cur : Option Nat) (i : Nat), i ∈ (cleanup_scan cur l).2 →
      ∃ c ∈ l, c.id = i := by
  intro l
  induction l with
  | nil => intro _ i hi; simp [cleanup_scan] at hi
  | cons c rest ih =>
    intro cur i hi
    simp only [cleanup_scan] at hi
    split at hi
    · simp at hi
      rcases hi with he | ht
      · exact ⟨c, by simp, he.symm⟩
      · obtain ⟨d, hd, hdi⟩ := ih cur i ht
        exact ⟨d, by simp [hd], hdi⟩
    · obtain ⟨d, hd, hdi⟩ := ih (some (bucketStart c.timestamp)) i hi
      exact ⟨d, by simp [hd], hdi⟩

/-- Claim C9.  On the schema created by `_create_tables`,
`cleanup_screenshots_except_thumbnails` over a range containing two
distinct samples in the same 5-minute bucket always raises the NOT NULL
constraint violation: the grouping pass necessarily marks some row for
deletion, and the `UPDATE ... SET screenshot = NULL` then aborts, nulling
no payload. -/
theorem c9_cleanup_notnull_raises (db : DB) (s e : Nat) (c1 c2 : CaptureRow)
    (h1 : c1 ∈ db.captures) (h2 : c2 ∈ db.captures) (hne : c1 ≠ c2)
    (hr1 : s ≤ c1.timestamp) (hr1e : c1.timestamp < e)
    (hr2 : s ≤ c2.timestamp) (hr2e : c2.timestamp < e)
    (hb : bucketStart c1.timestamp = bucketStart c2.timestamp) :
    cleanup_screenshots_except_thumbnails db s e =
      Except.error "NOT NULL constraint failed: captures.screenshot" := by
  have hc1 : c1 ∈ List.insertionSort tsLE
      (db.captures.filter (fun c => s ≤ c.timestamp && c.timestamp < e)) := by
    rw [List.mem_insertionSort tsLE, List.mem_filter]
    exact ⟨h1, by simp [hr1, hr1e]⟩
  have hc2 : c2 ∈ List.insertionSort tsLE
      (db.captures.filter (fun c => s ≤ c.timestamp && c.timestamp < e)) := by
    rw [List.mem_insertionSort tsLE, List.mem_filter]
    exact ⟨h2, by simp [hr2, hr2e]⟩
  have hdel : (cleanup_scan none (List.insertionSort tsLE
      (db.captures.filter (fun c => s ≤ c.timestamp && c.timestamp < e)))).2 ≠ [] := by
    intro hnil
    have hchainne := cleanup_scan_nil_chain _ none hnil
    have hsorted : List.Sorted tsLE (List.insertionSort tsLE
        (db.captures.filter (fun c => s ≤ c.timestamp && c.timestamp < e))) :=
      List.sorted_insertionSort tsLE _
    have hchainle : List.Chain' tsLE _ := hsorted.chain'
    have hlt : List.Chain' bucketLT (List.insertionSort tsLE
        (db.captures.filter (fun c => s ≤ c.timestamp && c.timestamp < e))) :=
      (chain'_and tsLE (fun a b => bucketStart a.timestamp ≠ bucketStart b.timestamp) _
        hchainle hchainne).imp
        (fun a b hab => lt_of_le_of_ne (bucketStart_mono hab.1) hab.2)
    have hpair := List.chain'_iff_pairwise.mp hlt
    have hpairne : List.Pairwise
        (fun a b : CaptureRow => bucketStart a.timestamp ≠ bucketStart b.timestamp)
        (List.insertionSort tsLE
          (db.captures.filter (fun c => s ≤ c.timestamp && c.timestamp < e))) :=
      hpair.imp (fun h => Nat.ne_of_lt h)
    exact List.Pairwise.forall (fun _ _ h => h.symm) hpairne hc1 hc2 hne hb
  have hLne : (List.insertionSort tsLE
      (db.captures.filter (fun c => s ≤ c.timestamp && c.timestamp < e))).isEmpty = false := by
    cases hl : List.insertionSort tsLE
        (db.captures.filter (fun c => s ≤ c.timestamp && c.timestamp < e)) with
    | nil => rw [hl] at hc1; exact absurd hc1 (List.not_mem_nil c1)
    | cons a t => rfl
  have hdelb : ((cleanup_scan none (List.insertionSort tsLE
      (db.captures.filter (fun c => s ≤ c.timestamp && c.timestamp < e)))).2).isEmpty
        = false := by
    cases hl : (cleanup_scan none (List.insertionSort tsLE
        (db.captures.filter (fun c => s ≤ c.timestamp && c.timestamp < e)))).2 with
    | nil => exact absurd hl hdel
    | cons a t => rfl
  have hany : db.captures.any (fun c => ((cleanup_scan none (List.insertionSort tsLE
      (db.captures.filter (fun c => s ≤ c.timestamp && c.timestamp < e)))).2).contains c.id)
        = true := by
    rw [List.any_eq_true]
    cases hl : (cleanup_scan none (List.insertionSort tsLE
        (db.captures.filter (fun c => s ≤ c.timestamp && c.timestamp < e)))).2 with
    | nil => exact absurd hl hdel
    | cons i t =>
      obtain ⟨c, hc, hci⟩ := cleanup_scan_delete_mem _ none i (by rw [hl]; simp)
      have hcdb : c ∈ db.captures := by
        rw [List.mem_insertionSort tsLE, List.mem_filter] at hc
        exact hc.1
      refine ⟨c, hcdb, ?_⟩
      rw [hci]
      simp
  simp only [cleanup_screenshots_except_thumbnails, hLne, Bool.false_eq_true, if_false,
    hdelb, update_screenshots_null, hany, if_true]

/-- A database holding captures at t = 60 and t = 70, both in the
5-minute bucket starting at t = 0. -/
def pair_bucket_db : DB :=
  { emptyDB with
    captures := [⟨5, 60, some [3], none, none, none⟩, ⟨6, 70, some [4], none, none, none⟩],
    next_capture_id := 7 }

/-- Claim C9, witness: cleaning [0, 3600) over `pair_bucket_db` raises the
NOT NULL violation. -/
theorem c9_cleanup_notnull_raises_witness :
    cleanup_screenshots_except_thumbnails pair_bucket_db 0 3600 =
      Except.error "NOT NULL constraint failed: captures.screenshot" :=
  c9_cleanup_notnull_raises pair_bucket_db 0 3600
    ⟨5, 60, some [3], none, none, none⟩ ⟨6, 70, some [4], none, none, none⟩
    (by decide) (by decide) (by decide) (by decide) (by decide) (by decide) (by decide)
    (by decide)

/-! ### Claim C10: failed captures persist an empty, non-null payload -/

/-- Claim C10.  A failed screenshot capture persists a row whose payload is
the empty byte string together with the fixed error marker (first
conjunct), and every row freshly inserted by `save_capture`, success or
failure, carries a non-null payload — the `screenshot` bytes argument —
at insertion time (second conjunct). -/
theorem c10_capture_failure_payload :
    (∀ (db : DB) (ts : Nat),
        (capture_and_classify_failure db ts).captures =
          db.captures ++ [⟨db.next_capture_id, ts, some [], none, none,
            some "Screenshot capture failed"⟩]) ∧
    (∀ (db : DB) (blob : List Nat) (d : Option String) (ls : List String)
        (raw err : Option String) (ts now : Nat) (c : CaptureRow),
        c ∈ ((save_capture db blob d ls raw err ts now).2).captures →
        c ∈ db.captures ∨ c.screenshot = some blob) := by
  constructor
  · intro db ts
    unfold capture_and_classify_failure
    exact save_capture_captures db [] none [] none (some "Screenshot capture failed") ts ts
  · intro db blob d ls raw err ts now c hc
    rw [save_capture_captures] at hc
    rcases List.mem_append.mp hc with h | h
    · exact Or.inl h
    · right
      simp at h
      rw [h]

/-- Claim C10, witness: the row inserted into an empty database carries its
payload bytes. -/
theorem c10_capture_failure_payload_witness :
    (⟨1, 5, some [7], none, none, none⟩ : CaptureRow) ∈ emptyDB.captures ∨
    (⟨1, 5, some [7], none, none, none⟩ : CaptureRow).screenshot = some [7] :=
  c10_capture_failure_payload.2 emptyDB [7] none [] none none 5 5
    ⟨1, 5, some [7], none, none, none⟩ (by decide)

/-! ### Claim C2: contiguity of consecutive rollups -/

theorem latest_step_mono (t : String) (acc : Option SummaryRow) (c a : SummaryRow)
    (ha : acc = some a) :
    ∃ b, latest_step t acc c = some b ∧ a.end_time ≤ b.end_time := by
  subst ha
  unfold latest_step
  by_cases hty : (c.summary_type == t) = true
  · rw [if_pos hty]
    dsimp only
    by_cases hlt : a.end_time < c.end_time
    · rw [if_pos hlt]
      exact ⟨c, rfl, Nat.le_of_lt hlt⟩
    · rw [if_neg hlt]
      exact ⟨a, rfl, Nat.le_refl _⟩
  · rw [if_neg hty]
    exact ⟨a, rfl, Nat.le_refl _⟩

theorem latest_step_typed (t : String) (acc : Option SummaryRow) (c : SummaryRow)
    (hc : (c.summary_type == t) = true) :
    ∃ b, latest_step t acc c = some b ∧ c.end_time ≤ b.end_time := by
  unfold latest_step
  rw [if_pos hc]
  cases acc with
  | none => exact ⟨c, rfl, Nat.le_refl _⟩
  | some a =>
    dsimp only
    by_cases hlt : a.end_time < c.end_time
    · rw [if_pos hlt]
      exact ⟨c, rfl, Nat.le_refl _⟩
    · rw [if_neg hlt]
      exact ⟨a, rfl, Nat.le_of_not_lt hlt⟩

theorem latest_foldl_ge (t : String) :
    ∀ (l : List SummaryRow) (acc : Option SummaryRow) (v : Nat),
      ((∃ x ∈ l, (x.summary_type == t) = true ∧ v ≤ x.end_time) ∨
        (∃ a, acc = some a ∧ v ≤ a.end_time)) →
      ∃ r, l.foldl (latest_step t) acc = some r ∧ v ≤ r.end_time := by
  intro l
  induction l with
  | nil =>
    intro acc v h
    rcases h with ⟨x, hx, _⟩ | ⟨a, ha, hv⟩
    · exact absurd hx (List.not_mem_nil x)
    · exact ⟨a, by rw [List.foldl_nil, ha], hv⟩
  | cons c rest ih =>
    intro acc v h
    rw [List.foldl_cons]
    rcases h with ⟨x, hx, hty, hv⟩ | ⟨a, ha, hv⟩
    · rcases List.mem_cons.mp hx with he | ht
      · obtain ⟨b, hb, hcb⟩ := latest_step_typed t acc c (by rw [← he]; exact hty)
        refine ih (latest_step t acc c) v (Or.inr ⟨b, hb, ?_⟩)
        rw [he] at hv
        exact Nat.le_trans hv hcb
      · exact ih _ v (Or.inl ⟨x, ht, hty, hv⟩)
    · obtain ⟨b, hb, hab⟩ := latest_step_mono t acc c a ha
      exact ih _ v (Or.inr ⟨b, hb, Nat.le_trans hv hab⟩)

theorem latest_covers (db : DB) (t : String) (x : SummaryRow)
    (hx : x ∈ db.summaries) (hty : (x.summary_type == t) = true) :
    ∃ r, get_latest_summary db t = some r ∧ x.end_time ≤ r.end_time :=
  latest_foldl_ge t db.summaries none x.end_time (Or.inl ⟨x, hx, hty, Nat.le_refl _⟩)

/-- The relation the rollup-contiguity invariant asserts about two rollups
persisted one after the other: the earlier one ends no later than the next
one starts (no overlap). -/
def contiguous (a b : SummaryRow) : Prop := a.end_time ≤ b.start_time

/-- The persisted 5-minute rollup rows, in order of persistence. -/
def five_min_rows (db : DB) : List SummaryRow :=
  db.summaries.filter (fun r => r.summary_type == "5min")

/-- The per-granularity invariant maintained by the daemon for the short
granularity: the persisted 5-minute rollups are pairwise non-overlapping in
persistence order, and all of them end at or before the watermark. -/
def inv_5min : DaemonState × DB → Prop :=
  fun s => List.Chain' contiguous (five_min_rows s.2) ∧
    ∀ r ∈ five_min_rows s.2, r.end_time ≤ s.1.last_5min_summary

theorem five_min_rows_eq_of_summaries {db db2 : DB} (h : db2.summaries = db.summaries) :
    five_min_rows db2 = five_min_rows db := by
  unfold five_min_rows
  rw [h]

theorem five_min_rows_save_summary_5min (db : DB) (st en : Nat) (content : String)
    (vp : Option String) :
    five_min_rows ((save_summary db "5min" st en content vp).2) =
      five_min_rows db ++ [⟨db.next_summary_id, "5min", st, en, content, vp⟩] := by
  unfold five_min_rows save_summary
  simp [List.filter_append]

theorem five_min_rows_save_summary_hourly (db : DB) (st en : Nat) (content : String)
    (vp : Option String) :
    five_min_rows ((save_summary db "hourly" st en content vp).2) = five_min_rows db := by
  unfold five_min_rows save_summary
  simp [List.filter_append]

theorem inv_5min_step (s : DaemonState × DB) (ev : Event) (h : inv_5min s) :
    inv_5min (apply_event s ev) := by
  obtain ⟨st, db⟩ := s
  obtain ⟨hchain, hwm⟩ := h
  cases ev with
  | captureFail ts =>
    have hs : (capture_and_classify_failure db ts).summaries = db.summaries := by
      unfold capture_and_classify_failure
      rw [save_capture_summaries]
    simp only [apply_event]
    exact ⟨by rw [five_min_rows_eq_of_summaries hs]; exact hchain,
      fun r hr => hwm r (by rw [five_min_rows_eq_of_summaries hs] at hr; exact hr)⟩
  | captureOk ts blob now res =>
    have hs : (classify_and_save db blob ts now res).summaries = db.summaries := by
      unfold classify_and_save
      cases res with
      | ok labels description raw => rw [save_capture_summaries]
      | failed er => rw [save_capture_summaries]
    simp only [apply_event]
    exact ⟨by rw [five_min_rows_eq_of_summaries hs]; exact hchain,
      fun r hr => hwm r (by rw [five_min_rows_eq_of_summaries hs] at hr; exact hr)⟩
  | tick5 now o =>
    simp only [apply_event, check_5min]
    split
    · rename_i hdue
      have hle : st.last_5min_summary ≤ now := by omega
      simp only [generate_5min]
      split
      · exact ⟨hchain, fun r hr => Nat.le_trans (hwm r hr) hle⟩
      · split
        · exact ⟨hchain, hwm⟩
        · constructor
          · rw [five_min_rows_save_summary_5min]
            exact chain'_append_singleton contiguous _ _ hchain (fun x hx => hwm x hx)
          · intro r hr
            rw [five_min_rows_save_summary_5min] at hr
            rcases List.mem_append.mp hr with h1 | h1
            · exact Nat.le_trans (hwm r h1) hle
            · simp at h1
              rw [h1]
    · exact ⟨hchain, hwm⟩
  | tickHourly now o vp =>
    simp only [apply_event, check_hourly]
    split
    · simp only [generate_hourly]
      split
      · exact ⟨hchain, hwm⟩
      · split
        · exact ⟨hchain, hwm⟩
        · have h5 := five_min_rows_save_summary_hourly db st.last_hourly_summary now
            (generate_hourly_summary
              (get_summaries_in_range db "5min" st.last_hourly_summary now) o) vp
          split
          · exact ⟨by rw [h5]; exact hchain, fun r hr => hwm r (by rw [h5] at hr; exact hr)⟩
          · rename_i res heq
            have hsum := cleanup_ok_summaries _ _ _ _ heq
            have h5b := five_min_rows_eq_of_summaries hsum
            rw [h5] at h5b
            exact ⟨by rw [h5b]; exact hchain,
              fun r hr => hwm r (by rw [h5b] at hr; exact hr)⟩
    · exact ⟨hchain, hwm⟩
  | restart now =>
    simp only [apply_event]
    refine ⟨hchain, ?_⟩
    intro r hr
    have hmem := (List.mem_filter.mp hr).1
    have hty := (List.mem_filter.mp hr).2
    obtain ⟨m, hm, hle⟩ := latest_covers db "5min" r hmem hty
    show r.end_time ≤ (init_state now db).last_5min_summary
    unfold init_state
    rw [hm]
    exact hle

theorem inv_5min_run (events : List Event) :
    ∀ s : DaemonState × DB, inv_5min s → inv_5min (events.foldl apply_event s) := by
  induction events with
  | nil => intro s h; exact h
  | cons e rest ih =>
    intro s h
    rw [List.foldl_cons]
    exact ih _ (inv_5min_step s e h)

/-- The run of the spec's gap scenario: a capture at t = 10, a successful
5-minute rollup at t = 400, an empty-window due-check at t = 750 (no
captures after t = 400, so the watermark skips ahead), a capture at t =
800, and a successful 5-minute rollup at t = 1100.  The daemon starts
fresh at t = 300, so the first watermark is 0. -/
def gap_events : List Event :=
  [Event.captureFail 10, Event.tick5 400 (ApiOutcome.content "work"),
   Event.tick5 750 ApiOutcome.noStatus, Event.captureFail 800,
   Event.tick5 1100 (ApiOutcome.content "more work")]

/-- Claim C2, counterexample.  In the gap scenario, the two consecutively
persisted 5-minute rollups are `[0, 400]` and `[750, 1100]`:
`rollup[0].end_time = 400 ≠ 750 = rollup[1].start_time`, because the
empty-window skip at t = 750 advanced the watermark without persisting a
row, so consecutive persisted rollups have a gap. -/
theorem c2_contiguity_cex :
    ((run_events 300 gap_events).2.summaries.map
        (fun r => (r.summary_type, r.start_time, r.end_time)))
      = [("5min", 0, 400), ("5min", 750, 1100)] ∧
    (400 : Nat) ≠ 750 := by
  decide

/-- Claim C2, amended.  For the short granularity, over every sequential
run of the daemon from a fresh database — captures, due-checks with
arbitrary collaborator outcomes, and process restarts that re-seed the
watermark from the latest persisted rollup — consecutively persisted
5-minute rollups never overlap: `rollup[n].end_time ≤
rollup[n+1].start_time`.  Equality (no gap) does not hold in general:
an empty-window skip between the two generations advances the watermark
without persisting a row, leaving a gap. -/
theorem c2_rollups_never_overlap (now0 : Nat) (events : List Event) :
    List.Chain' contiguous (five_min_rows (run_events now0 events).2) :=
  (inv_5min_run events (init_state now0 emptyDB, emptyDB)
    ⟨by simp [five_min_rows, emptyDB], by intro r hr; simp [five_min_rows, emptyDB] at hr⟩).1

end FocusLog
